import Mathlib

/-!
Verification of the metube video-ingestion pipeline (src/video_processing.rs,
src/video.rs, src/data.rs) against its natural-language specification.

Strings from the Rust source are modelled as lists of characters, byte
buffers as lists of natural numbers below 256, the filesystem as an
association list from paths to content tags, and the SQLite index as a list
of records.  External subprocess invocations (ffprobe, ffmpeg) and the
upload stream are nondeterministic inputs, passed to the embedded functions
as explicit arguments.  Floating-point seconds are modelled as exact
rationals; the decimal-literal grammar of Rust's f64 parser is reproduced
(the special forms inf and NaN, which an ffprobe duration never takes, are
not modelled).
-/

set_option maxRecDepth 10000

/-- Abbreviation: characters of a string literal. -/
def str (s : String) : List Char := s.data

/-- The error type of src/error.rs, restricted to the constructors
used by the pipeline: a runtime error with a message and an HTTP-status
error. -/
inductive Err where
  | rterr : List Char → Err
  | httpStatus : Nat → List Char → Err
deriving DecidableEq, Repr

/-! ## Bytes, 32-bit words, and hex encoding -/

/-- Truncate to a 32-bit word, as all SHA-256 arithmetic is mod 2^32. -/
def w32 (n : Nat) : Nat := n % 4294967296

/-- Right rotation of a 32-bit word. -/
def rotr (k n : Nat) : Nat := w32 ((n >>> k) ||| (n <<< (32 - k)))

/-- Logical right shift (no-op wrapper for symmetry). -/
def shr (k n : Nat) : Nat := n >>> k

/-- A big-endian 32-bit word from four bytes. -/
def word32OfBytes (b0 b1 b2 b3 : Nat) : Nat :=
  b0 * 16777216 + b1 * 65536 + b2 * 256 + b3

/-- Big-endian bytes of a 32-bit word. -/
def bytesOfWord32 (n : Nat) : List Nat :=
  [n / 16777216 % 256, n / 65536 % 256, n / 256 % 256, n % 256]

/-- Big-endian bytes of a 64-bit length field. -/
def bytesOfWord64 (n : Nat) : List Nat :=
  [n / 72057594037927936 % 256, n / 281474976710656 % 256,
   n / 1099511627776 % 256, n / 4294967296 % 256,
   n / 16777216 % 256, n / 65536 % 256, n / 256 % 256, n % 256]

/-- Group a byte list into big-endian 32-bit words (groups of 4). -/
def wordsOfBytes : List Nat → List Nat
  | b0 :: b1 :: b2 :: b3 :: rest => word32OfBytes b0 b1 b2 b3 :: wordsOfBytes rest
  | _ => []

/-- Group a word list into 16-word SHA-256 blocks. -/
def blocks16 : List Nat → List (List Nat)
  | w0 :: w1 :: w2 :: w3 :: w4 :: w5 :: w6 :: w7 ::
    w8 :: w9 :: w10 :: w11 :: w12 :: w13 :: w14 :: w15 :: rest =>
      [w0, w1, w2, w3, w4, w5, w6, w7, w8, w9, w10, w11, w12, w13, w14, w15]
        :: blocks16 rest
  | _ => []

/-! ## SHA-256 (FIPS 180-4), as computed by the sha2 crate used in
`UploadingVideo::saveToTemp`. -/

/-- The 64 SHA-256 round constants. -/
def sha256K : List Nat :=
  [1116352408, 1899447441, 3049323471, 3921009573, 961987163,
   1508970993, 2453635748, 2870763221, 3624381080, 310598401,
   607225278, 1426881987, 1925078388, 2162078206, 2614888103,
   3248222580, 3835390401, 4022224774, 264347078, 604807628,
   770255983, 1249150122, 1555081692, 1996064986, 2554220882,
   2821834349, 2952996808, 3210313671, 3336571891, 3584528711,
   113926993, 338241895, 666307205, 773529912, 1294757372,
   1396182291, 1695183700, 1986661051, 2177026350, 2456956037,
   2730485921, 2820302411, 3259730800, 3345764771, 3516065817,
   3600352804, 4094571909, 275423344, 430227734, 506948616,
   659060556, 883997877, 958139571, 1322822218, 1537002063,
   1747873779, 1955562222, 2024104815, 2227730452, 2361852424,
   2428436474, 2756734187, 3204031479, 3329325298]

/-- The SHA-256 initial hash value. -/
structure Hash8 where
  a : Nat
  b : Nat
  c : Nat
  d : Nat
  e : Nat
  f : Nat
  g : Nat
  h : Nat
deriving Repr, DecidableEq

def sha256H0 : Hash8 :=
  ⟨1779033703, 3144134277, 1013904242, 2773480762,
   1359893119, 2600822924, 528734635, 1541459225⟩

def bigSigma0 (x : Nat) : Nat := rotr 2 x ^^^ rotr 13 x ^^^ rotr 22 x
def bigSigma1 (x : Nat) : Nat := rotr 6 x ^^^ rotr 11 x ^^^ rotr 25 x
def smallSigma0 (x : Nat) : Nat := rotr 7 x ^^^ rotr 18 x ^^^ shr 3 x
def smallSigma1 (x : Nat) : Nat := rotr 17 x ^^^ rotr 19 x ^^^ shr 10 x
def shaCh (e f g : Nat) : Nat := (e &&& f) ^^^ ((4294967295 ^^^ e) &&& g)
def shaMaj (a b c : Nat) : Nat := (a &&& b) ^^^ (a &&& c) ^^^ (b &&& c)

/-- Extend a 16-word block to the 64-word message schedule.
The fuel argument counts the remaining words to append (48 for SHA-256). -/
def extendW : Nat → List Nat → List Nat
  | 0, w => w
  | n + 1, w =>
      let i := w.length
      let wNew := w32 (w.getD (i - 16) 0 + smallSigma0 (w.getD (i - 15) 0) +
                       w.getD (i - 7) 0 + smallSigma1 (w.getD (i - 2) 0))
      extendW n (w ++ [wNew])

/-- One SHA-256 compression round. -/
def shaRound (st : Hash8) (kw : Nat × Nat) : Hash8 :=
  let t1 := w32 (st.h + bigSigma1 st.e + shaCh st.e st.f st.g + kw.1 + kw.2)
  let t2 := w32 (bigSigma0 st.a + shaMaj st.a st.b st.c)
  ⟨w32 (t1 + t2), st.a, st.b, st.c, w32 (st.d + t1), st.e, st.f, st.g⟩

/-- Compress one 16-word block into the running hash state. -/
def shaCompress (st : Hash8) (block : List Nat) : Hash8 :=
  let w := extendW 48 block
  let r := (sha256K.zip w).foldl shaRound st
  ⟨w32 (st.a + r.a), w32 (st.b + r.b), w32 (st.c + r.c), w32 (st.d + r.d),
   w32 (st.e + r.e), w32 (st.f + r.f), w32 (st.g + r.g), w32 (st.h + r.h)⟩

/-- SHA-256 padding: append the byte 128, zeros to 56 mod 64, then the 64-bit
bit length big-endian. -/
def sha256Pad (msg : List Nat) : List Nat :=
  let k := (119 - msg.length % 64) % 64
  msg ++ 128 :: List.replicate k 0 ++ bytesOfWord64 (msg.length * 8)

/-- The SHA-256 digest (32 bytes) of a byte sequence. -/
def sha256 (msg : List Nat) : List Nat :=
  let final := (blocks16 (wordsOfBytes (sha256Pad msg))).foldl shaCompress sha256H0
  bytesOfWord32 final.a ++ bytesOfWord32 final.b ++ bytesOfWord32 final.c ++
  bytesOfWord32 final.d ++ bytesOfWord32 final.e ++ bytesOfWord32 final.f ++
  bytesOfWord32 final.g ++ bytesOfWord32 final.h

/-- A lowercase hexadecimal digit, as produced by Rust format x. -/
def hexDigitChar (n : Nat) : Char :=
  if n < 10 then Char.ofNat (48 + n) else Char.ofNat (87 + n)

/-- Two lowercase hex characters of one byte: the 02x format of a byte. -/
def byteToHex2 (b : Nat) : List Char := [hexDigitChar (b / 16 % 16), hexDigitChar (b % 16)]

/-- Hex encoding of a byte sequence, joined with no separator. -/
def bytesToHex (bs : List Nat) : List Char := (bs.map byteToHex2).flatten

/-! ## Line splitting: Rust str lines
Splits at a line feed, strips one carriage return at the end of each line,
and does not produce a final empty line for a trailing line feed. -/

/-- Split a character list at every line feed (keeping empty segments). -/
def splitNewlines : List Char → List Char → List (List Char)
  | [], acc => [acc.reverse]
  | c :: rest, acc =>
      if c = '\n' then acc.reverse :: splitNewlines rest []
      else splitNewlines rest (c :: acc)

/-- Strip a single trailing carriage return, as Rust lines does. -/
def stripCR (l : List Char) : List Char :=
  if l.getLast? = some '\r' then l.dropLast else l

/-- The lines of a string, per Rust str lines: terminators are a line feed
or a carriage return plus line feed, and the final terminator is optional. -/
def rustLines (s : List Char) : List (List Char) :=
  let parts := splitNewlines s []
  let parts := if parts.getLast? = some [] then parts.dropLast else parts
  parts.map stripCR

/-! ## The probe-output parser of src/video_processing.rs -/

/-- A named section of probe output: src/video_processing.rs lines 47-52.
The metadata map (a Rust HashMap) is modelled as an association list in
insertion order; insertion replaces the entry of an existing key. -/
structure ProbedMetadataSection where
  name : List Char
  metadata : List (List Char × List Char)
deriving Repr, DecidableEq

/-- ProbedMetadataSection::new. -/
def ProbedMetadataSection.mkNew : ProbedMetadataSection := ⟨[], []⟩

/-- HashMap::insert on the association-list model: replace the value of an
existing key, otherwise append. -/
def mapInsert (m : List (List Char × List Char)) (k v : List Char) :
    List (List Char × List Char) :=
  if m.any (fun kv => kv.1 = k) then
    m.map (fun kv => if kv.1 = k then (k, v) else kv)
  else m ++ [(k, v)]

/-- HashMap::get on the association-list model. -/
def mapGet (m : List (List Char × List Char)) (k : List Char) :
    Option (List Char) :=
  (m.find? (fun kv => kv.1 = k)).map (fun kv => kv.2)

/-- Match against the section-begin regex of the source: a full-line match
of a left bracket, one or more characters none of which is a slash, and a
right bracket; on a match, return the captured name. -/
def secBeginName (l : List Char) : Option (List Char) :=
  match l with
  | '[' :: rest =>
      let mid := rest.dropLast
      if rest.getLast? = some ']' ∧ mid ≠ [] ∧ mid.all (fun c => c ≠ '/') then
        some mid
      else none
  | _ => none

/-- Match against the section-end regex of the source: a full-line match of
a left bracket, a slash, one or more non-slash characters, and a right
bracket; on a match, return the captured name. -/
def secEndName (l : List Char) : Option (List Char) :=
  match l with
  | '[' :: '/' :: rest =>
      let mid := rest.dropLast
      if rest.getLast? = some ']' ∧ mid ≠ [] ∧ mid.all (fun c => c ≠ '/') then
        some mid
      else none
  | _ => none

/-- Rust splitn 2 on the equals sign: the first element is the prefix
before the first equals sign (the whole line if there is none), the second
element exists only if an equals sign occurs. -/
def splitFirstEq : List Char → List Char × Option (List Char)
  | [] => ([], none)
  | c :: rest =>
      if c = '=' then ([], some rest)
      else
        let r := splitFirstEq rest
        (c :: r.1, r.2)

/-- The loop body state of parseProbeOutput, processed line by line:
returns the accumulated result and the current section on success.
This is the loop of src/video_processing.rs lines 68-98. -/
def parseLines : List (List Char) → List ProbedMetadataSection →
    ProbedMetadataSection → Except Err (List ProbedMetadataSection × ProbedMetadataSection)
  | [], result, current => .ok (result, current)
  | line :: rest, result, current =>
      if line.isEmpty then parseLines rest result current
      else
        match secBeginName line with
        | some name => parseLines rest result ⟨name, []⟩
        | none =>
          match secEndName line with
          | some name =>
              if name = current.name then
                parseLines rest (result ++ [current]) current
              else
                .error (.rterr (str "Unmatched section end: expect " ++
                  current.name ++ str ", found " ++ name ++ str "."))
          | none =>
              match splitFirstEq line with
              | (key, some value) =>
                  parseLines rest result
                    ⟨current.name, mapInsert current.metadata key value⟩
              | (_, none) =>
                  .error (.rterr (str "Invalid metadata line: " ++ line))

/-- parseProbeOutput of src/video_processing.rs lines 62-101. -/
def parseProbeOutput (output : List Char) : Except Err (List ProbedMetadataSection) :=
  (parseLines (rustLines output) [] ProbedMetadataSection.mkNew).map (fun rc => rc.1)

/-! ## The probe-output parser of src/video.rs (a second, identical copy) -/

/-- The loop of parseProbeOutput in src/video.rs lines 81-111, translated
separately from that file. -/
def parseLinesV : List (List Char) → List ProbedMetadataSection →
    ProbedMetadataSection → Except Err (List ProbedMetadataSection × ProbedMetadataSection)
  | [], result, current => .ok (result, current)
  | line :: rest, result, current =>
      if line.isEmpty then parseLinesV rest result current
      else
        match secBeginName line with
        | some name => parseLinesV rest result ⟨name, []⟩
        | none =>
          match secEndName line with
          | some name =>
              if name = current.name then
                parseLinesV rest (result ++ [current]) current
              else
                .error (.rterr (str "Unmatched section end: expect " ++
                  current.name ++ str ", found " ++ name ++ str "."))
          | none =>
              match splitFirstEq line with
              | (key, some value) =>
                  parseLinesV rest result
                    ⟨current.name, mapInsert current.metadata key value⟩
              | (_, none) =>
                  .error (.rterr (str "Invalid metadata line: " ++ line))

/-- parseProbeOutput of src/video.rs lines 75-114. -/
def parseProbeOutputV (output : List Char) : Except Err (List ProbedMetadataSection) :=
  (parseLinesV (rustLines output) [] ProbedMetadataSection.mkNew).map (fun rc => rc.1)

/-! ## Container types and the video record -/

/-- ContainerType of src/video.rs lines 14-17. -/
inductive ContainerType where
  | Mp4
  | WebM
deriving Repr, DecidableEq

/-- ContainerType::fromFormatName, src/video.rs lines 31-39. -/
def ContainerType.fromFormatName (name : List Char) : Option ContainerType :=
  if name = str "mov,mp4,m4a,3gp,3g2,mj2" then some .Mp4
  else if name = str "matroska,webm" then some .WebM
  else none

/-- Parse a decimal digit. -/
def digitVal (c : Char) : Option Nat :=
  if '0' ≤ c ∧ c ≤ '9' then some (c.toNat - 48) else none

/-- Value of a nonempty digit run. -/
def digitsVal (l : List Char) : Option Nat :=
  if l = [] then none
  else l.foldlM (fun acc c => (digitVal c).map (fun d => acc * 10 + d)) 0

/-- Rust f64 parsing of a decimal literal, with the exact rational value:
an optional sign, then either digits with an optional fractional part, or
a dot with digits, then an optional exponent part.  The special forms inf
and NaN, which an ffprobe duration string never takes, are not modelled,
and the value is kept exact instead of rounded to the nearest double. -/
def parseF64 (l : List Char) : Option ℚ :=
  let signAndRest : Bool × List Char :=
    match l with
    | '-' :: rest => (true, rest)
    | '+' :: rest => (false, rest)
    | _ => (false, l)
  let neg := signAndRest.1
  let body := signAndRest.2
  let mantAndExp : List Char × List Char :=
    let r := body.span (fun c => c ≠ 'e' ∧ c ≠ 'E')
    (r.1, r.2)
  let mant := mantAndExp.1
  let expPart : Option ℤ :=
    match mantAndExp.2 with
    | [] => some 0
    | _ :: expBody =>
        match expBody with
        | '-' :: ds => (digitsVal ds).map (fun n => -(n : ℤ))
        | '+' :: ds => (digitsVal ds).map (fun n => (n : ℤ))
        | ds => (digitsVal ds).map (fun n => (n : ℤ))
  let intFrac := mant.span (fun c => c ≠ '.')
  let mantVal : Option ℚ :=
    match intFrac.2 with
    | [] => (digitsVal intFrac.1).map (fun n => (n : ℚ))
    | _ :: fracDigits =>
        if intFrac.1 = [] ∧ fracDigits = [] then none
        else if fracDigits.any (fun c => (digitVal c).isNone) then none
        else
          let ip : ℚ := ((digitsVal intFrac.1).getD 0 : ℚ)
          let fp : ℚ := ((digitsVal fracDigits).getD 0 : ℚ) /
            ((10 : ℚ) ^ fracDigits.length)
          if intFrac.1 ≠ [] ∧ (digitsVal intFrac.1).isNone then none
          else some (ip + fp)
  match mantVal, expPart with
  | some m, some e =>
      let v := m * (10 : ℚ) ^ e
      some (if neg then -v else v)
  | _, _ => none

/-- The Video record of the current revision: fields of src/video.rs
lines 116-131 plus the thumbnail path column of src/data.rs.  The
upload time is a Unix timestamp and the duration is in exact rational
seconds. -/
structure Video where
  id : List Char
  path : List Char
  title : List Char
  desc : List Char
  artist : List Char
  views : Nat
  upload_time : Int
  container_type : ContainerType
  original_filename : List Char
  duration : ℚ
  thumbnail_path : Option (List Char)
deriving Repr, DecidableEq

/-- Modelled from the spec: Video::new is called by
RawVideo::probeMetadata as Video::new(self.hash, &self.path) but is absent
from the src revision of video.rs.  Per the spec data model, it creates a
record whose id is the given truncated-hash identifier and whose path is
the given relative path, with title, description, artist and original
filename empty, zero views, epoch upload time, a default container type,
zero duration and no thumbnail. -/
def Video.new (id path : List Char) : Video :=
  ⟨id, path, [], [], [], 0, 0, .Mp4, [], 0, none⟩

/-- fillProbedMetadata of src/video_processing.rs lines 122-191: fold the
FORMAT sections into the record. -/
def fillSection (video : Video) (section_ : ProbedMetadataSection) :
    Except Err Video :=
  if section_.name = str "FORMAT" then do
    let video ←
      match mapGet section_.metadata (str "format_name") with
      | some value =>
          match ContainerType.fromFormatName value with
          | some ct => pure { video with container_type := ct }
          | none => .error (.rterr (str "Unsupported format_name: " ++ value))
      | none => .error (.rterr (str "format_name not found"))
    let video ←
      match mapGet section_.metadata (str "duration") with
      | some value =>
          match parseF64 value with
          | some d => pure { video with duration := d }
          | none => .error (.rterr (str "Invalid duration: " ++ value))
      | none => .error (.rterr (str "Duration not found"))
    let video :=
      match mapGet section_.metadata (str "TAG:title") with
      | some value => { video with title := value }
      | none =>
        match mapGet section_.metadata (str "TAG:TITLE") with
        | some value => { video with title := value }
        | none => video
    let video :=
      match mapGet section_.metadata (str "TAG:comment") with
      | some value => { video with desc := value }
      | none =>
        match mapGet section_.metadata (str "TAG:COMMENT") with
        | some value => { video with desc := value }
        | none => video
    let video :=
      match mapGet section_.metadata (str "TAG:artist") with
      | some value => { video with artist := value }
      | none =>
        match mapGet section_.metadata (str "TAG:author") with
        | some value => { video with artist := value }
        | none =>
          match mapGet section_.metadata (str "TAG:ARTIST") with
          | some value => { video with artist := value }
          | none =>
            match mapGet section_.metadata (str "TAG:AUTHOR") with
            | some value => { video with artist := value }
            | none => video
    pure video
  else pure video

/-- fillProbedMetadata of src/video_processing.rs lines 122-191. -/
def fillProbedMetadata (video : Video) (metadata : List ProbedMetadataSection) :
    Except Err Video :=
  metadata.foldlM fillSection video

/-! ## Paths and the filesystem model

A path is a character list; the filesystem is an association list from
paths to content tags (a natural number standing for the file's bytes),
so that replacement of a file's content is observable. -/

/-- The file name component: the part after the last slash. -/
def fileName (p : List Char) : List Char :=
  ((p.reverse.span (fun c => c ≠ '/')).1).reverse

/-- The directory part, up to and including the last slash. -/
def dirPart (p : List Char) : List Char :=
  ((p.reverse.span (fun c => c ≠ '/')).2).reverse

/-- Split a file name at its last dot, if any: stem and suffix. -/
def splitAtLastDot (n : List Char) : Option (List Char × List Char) :=
  let r := n.reverse.span (fun c => c ≠ '.')
  match r.2 with
  | [] => none
  | _ :: beforeRev => some (beforeRev.reverse, r.1.reverse)

/-- Rust Path::extension: the suffix after the last dot of the file name,
none when there is no dot or when the only dot is the leading character of
the file name. -/
def pathExtension (p : List Char) : Option (List Char) :=
  match splitAtLastDot (fileName p) with
  | none => none
  | some se => if se.1 = [] then none else some se.2

/-- Rust Path::with_extension: replace or append the extension; an empty
new extension just strips the old one. -/
def withExtension (p : List Char) (ext : List Char) : List Char :=
  let n := fileName p
  let stem :=
    match splitAtLastDot n with
    | none => n
    | some se => if se.1 = [] then n else se.1
  dirPart p ++ stem ++ (if ext = [] then [] else '.' :: ext)

/-- Rust Path::join for a relative right operand. -/
def joinPath (dir p : List Char) : List Char :=
  if dir = [] then p
  else if dir.getLast? = some '/' then dir ++ p
  else dir ++ '/' :: p

/-- The filesystem: paths mapped to content tags. -/
abbrev FS : Type := List (List Char × Nat)

/-- Look up a path. -/
def fsLookup (fs : FS) (p : List Char) : Option Nat :=
  (List.find? (fun e => e.1 = p) fs).map (fun e => e.2)

/-- Best-effort removal, as std::fs::remove_file(..).ok(): removing an
absent path is a no-op. -/
def fsRemove (fs : FS) (p : List Char) : FS :=
  List.filter (fun e => ¬ e.1 = p) fs

/-- Write content at a path, replacing any existing entry. -/
def fsSet (fs : FS) (p : List Char) (c : Nat) : FS :=
  fsRemove fs p ++ [(p, c)]

/-- Modelled from the documented semantics of std::fs::rename, which the
renaming in RawVideo::moveToLibrary calls: the destination is replaced if
it already exists; the call fails if the source does not exist, or for an
injected external reason (such as a cross-device link), represented by the
Boolean argument. -/
def fsRename (failInject : Bool) (fs : FS) (src dst : List Char) :
    Except Err FS :=
  if failInject then .error (.rterr (str "injected rename failure"))
  else
    match fsLookup fs src with
    | none => .error (.rterr (str "No such file"))
    | some c => .ok (fsSet (fsRemove fs src) dst c)

/-- The configuration fields used by the pipeline, src/config.rs. -/
structure Configuration where
  video_dir : List Char
  thumbnail_quality : Nat
deriving Repr, DecidableEq

/-- videoPath of src/video_processing.rs lines 24-27. -/
def videoPath (video : Video) (config : Configuration) : List Char :=
  joinPath config.video_dir video.path

/-- expectedThumbnailPath of src/video_processing.rs lines 29-32. -/
def expectedThumbnailPath (video : Video) (config : Configuration) : List Char :=
  withExtension (joinPath config.video_dir video.path) (str "webp")

/-- RawVideo of src/video_processing.rs lines 200-206. -/
structure RawVideo where
  path : List Char
  hash : List Char
  original_filename : List Char
deriving Repr, DecidableEq

/-! ## UploadingVideo::saveToTemp, src/video_processing.rs lines 214-269

The upload stream is a list of events: a data chunk or a stream error.
The nondeterministic environment supplies the chosen temp file stem (the
random non-existing name), whether the temp file could be created, and the
index of the first chunk whose file write fails, if any. -/

inductive UploadEvent where
  | chunk : List Nat → UploadEvent
  | streamError : List Char → UploadEvent
deriving Repr, DecidableEq

structure SaveEnv where
  tempStem : List Char
  createOk : Bool
  writeFailAt : Option Nat
deriving Repr, DecidableEq

/-- The read loop of saveToTemp: for each chunk the hasher is updated
first and the bytes are appended to the file second, so on a write
failure the chunk is absorbed by the hasher but not by the file.  Returns
the absorbed bytes and the written bytes on success. -/
def saveLoop : List UploadEvent → Nat → Option Nat → List Nat → List Nat →
    Except Err (List Nat × List Nat)
  | [], _, _, absorbed, written => .ok (absorbed, written)
  | .streamError e :: _, _, _, _, _ =>
      .error (.rterr (str "Failed to acquire buffer from form data: " ++ e))
  | .chunk b :: rest, i, writeFailAt, absorbed, written =>
      let absorbed := absorbed ++ b
      if writeFailAt = some i then
        .error (.rterr (str "Failed to write temp file"))
      else saveLoop rest (i + 1) writeFailAt absorbed (written ++ b)

/-- Content tag standing for a byte sequence, to place file bytes into the
tag-valued filesystem model. -/
def contentTag (bytes : List Nat) : Nat :=
  bytes.foldl (fun acc b => acc * 256 + b + 1) 1

/-- UploadingVideo::saveToTemp.  Returns the produced RawVideo and the
state of the temp file: none when the file was never created or was
deleted during cleanup, otherwise its byte content. -/
def saveToTemp (origFilename : Option (List Char))
    (stream : List UploadEvent) (env : SaveEnv) (config : Configuration) :
    Except Err RawVideo × Option (List Nat) :=
  match origFilename with
  | none =>
      (.error (.httpStatus 400 (str "No filename in upload")), none)
  | some origName =>
      let ext := (pathExtension origName).getD []
      let tempFile := withExtension (joinPath config.video_dir env.tempStem) ext
      if ¬ env.createOk then
        (.error (.rterr (str "Failed to open temp file")), none)
      else
        match saveLoop stream 0 env.writeFailAt [] [] with
        | .error e => (.error e, none)
        | .ok aw =>
            let digest := sha256 aw.1
            (.ok ⟨tempFile, bytesToHex (digest.take 6), origName⟩, some aw.2)

/-! ## RawVideo::moveToLibrary, src/video_processing.rs lines 274-292 -/

/-- RawVideo::moveToLibrary: rename the temp file to the library path
derived from the hash; on a rename failure delete both paths, best effort,
and surface the error. -/
def libraryDest (self : RawVideo) (config : Configuration) : List Char :=
  withExtension (joinPath config.video_dir self.hash)
    ((pathExtension self.path).getD [])

def moveToLibrary (self : RawVideo) (config : Configuration)
    (renameFail : Bool) (fs : FS) : Except Err RawVideo × FS :=
  let video_file := libraryDest self config
  match fsRename renameFail fs self.path video_file with
  | .error _ =>
      (.error (.rterr (str "Failed to rename temp file")),
       fsRemove (fsRemove fs self.path) video_file)
  | .ok fs1 =>
      (.ok ⟨video_file, self.hash, self.original_filename⟩, fs1)

/-! ## RawVideo::probeMetadata, src/video_processing.rs lines 322-347 -/

/-- The outcome of running the external probe process: the launch may
fail, or the process terminates with an exit status (an exit code, or none
for a signal) and some standard output. -/
inductive ProcOutcome where
  | launchError : ProcOutcome
  | terminated : Option Int → List Char → ProcOutcome
deriving Repr, DecidableEq

/-- Whether an exit status counts as success: exit code zero. -/
def procSuccess : ProcOutcome → Bool
  | .terminated (some 0) _ => true
  | _ => false

/-- probeVideo of src/video_processing.rs lines 103-120: launch failure,
non-zero exit and signal termination are errors; on success the standard
output is parsed. -/
def probeVideo (outcome : ProcOutcome) : Except Err (List ProbedMetadataSection) :=
  match outcome with
  | .launchError => .error (.rterr (str "Failed to run ffprobe"))
  | .terminated code out =>
      if procSuccess (.terminated code out) then parseProbeOutput out
      else
        match code with
        | some _ => .error (.rterr (str "Ffprobe failed with code"))
        | none => .error (.rterr (str "Ffprobe terminated with signal."))

/-- RawVideo::probeMetadata: build the fresh record, probe, fill; on any
failure of the probe or of the metadata fill, delete the permanent media
file before surfacing the error.  The probe outcome and the current UTC
timestamp are inputs. -/
def probeMetadata (self : RawVideo) (config : Configuration)
    (outcome : ProcOutcome) (now : Int) (fs : FS) : Except Err Video × FS :=
  let video0 := Video.new self.hash self.path
  let video0 := { video0 with original_filename := self.original_filename,
                              upload_time := now }
  let full := joinPath config.video_dir self.path
  match probeVideo outcome with
  | .error e => (.error e, fsRemove fs full)
  | .ok metadata =>
      match fillProbedMetadata video0 metadata with
      | .ok video => (.ok video, fs)
      | .error e => (.error e, fsRemove fs full)

/-! ## Video::generateThumbnail, src/video_processing.rs lines 354-385 -/

/-- The outcome of running the external thumbnail process: launch failure,
or termination with a success flag. -/
inductive CmdStatus where
  | launchError : CmdStatus
  | exit : Bool → CmdStatus
deriving Repr, DecidableEq

/-- Video::generateThumbnail: the capture offset is 10 seconds when the
duration strictly exceeds 30 seconds and one third of the duration
otherwise; the function never returns an error, and the thumbnail path is
set only when the external tool exits successfully.  Returns the result
and the offset passed to the tool. -/
def generateThumbnail (self : Video) (st : CmdStatus) :
    Except Err Video × ℚ :=
  let thumb_time_sec : ℚ :=
    if self.duration > 30 then 10 else self.duration / 3
  let result :=
    match st with
    | .launchError => .ok self
    | .exit true =>
        Except.ok { self with thumbnail_path := some (withExtension self.path (str "webp")) }
    | .exit false => .ok self
  (result, thumb_time_sec)

/-! ## The database and Video::addToDatabase -/

/-- The durable index, keyed by id. -/
abbrev DB : Type := List Video

/-- Manager::addVideo of src/data.rs lines 128-154: a single insert that
fails on a uniqueness violation of the primary key id (the realistic
failure), or for an injected external reason (any other SQL error). -/
def addVideo (sqlFail : Bool) (db : DB) (v : Video) : Except Err DB :=
  if sqlFail then .error (.rterr (str "Failed to add video: injected"))
  else if db.any (fun w => w.id = v.id) then
    .error (.rterr (str "Failed to add video: UNIQUE constraint failed"))
  else .ok (db ++ [v])

/-- Video::addToDatabase of src/video_processing.rs lines 387-396: on an
insert failure, delete the permanent media file before surfacing the
error. -/
def addToDatabase (self : Video) (config : Configuration) (sqlFail : Bool)
    (db : DB) (fs : FS) : Except Err Unit × DB × FS :=
  match addVideo sqlFail db self with
  | .error e => (.error e, db, fsRemove fs (videoPath self config))
  | .ok db1 => (.ok (), db1, fs)

/-! ## Specification-side helper definitions used in theorem statements -/

/-- The bytes carried by the data chunks of an upload stream. -/
def streamedBytes : List UploadEvent → List Nat
  | [] => []
  | .chunk b :: rest => b ++ streamedBytes rest
  | .streamError _ :: rest => streamedBytes rest

/-- The artist value selected by the source's tag-lookup chain: the
all-lowercase artist tag, then the all-lowercase author tag, then the
all-uppercase forms, with a default when none of the four is present. -/
def artistFromTags (m : List (List Char × List Char)) (dflt : List Char) :
    List Char :=
  match mapGet m (str "TAG:artist") with
  | some v => v
  | none =>
    match mapGet m (str "TAG:author") with
    | some v => v
    | none =>
      match mapGet m (str "TAG:ARTIST") with
      | some v => v
      | none =>
        match mapGet m (str "TAG:AUTHOR") with
        | some v => v
        | none => dflt

/-- The set of lowercase hexadecimal digit characters. -/
def lowercaseHexDigits : List Char := str "0123456789abcdef"

/-- A concrete configuration for counterexamples and witnesses. -/
def cfgLib : Configuration := ⟨str "lib", 85⟩

/-- A concrete raw video sitting at a temp path, for the counterexample of
the move stage: the destination derived from its hash already exists. -/
def rawTemp : RawVideo := ⟨str "lib/temp-1.webm", str "abcdef123456", str "orig.webm"⟩

/-- A filesystem in which both the temp file (content tag 5) and the
derived library destination (content tag 7) exist. -/
def fsBoth : FS :=
  [(str "lib/temp-1.webm", 5), (str "lib/abcdef123456.webm", 7)]

/-- A FORMAT metadata map with a recognized container, a parsable
duration, and an artist tag whose key has mixed case. -/
def mixedCaseArtistMap : List (List Char × List Char) :=
  [(str "format_name", str "matroska,webm"),
   (str "duration", str "10.0"),
   (str "TAG:Artist", str "Somebody")]

/-- A FORMAT metadata map carrying the author tag in lowercase. -/
def authorTagMap : List (List Char × List Char) :=
  [(str "format_name", str "matroska,webm"),
   (str "duration", str "7.5"),
   (str "TAG:author", str "A. Writer")]

/-! ## Helper lemmas -/

theorem fsLookup_fsRemove_self (fs : FS) (p : List Char) :
    fsLookup (fsRemove fs p) p = none := by
  induction fs with
  | nil => rfl
  | cons e rest ih =>
      by_cases h : e.1 = p
      · simp [fsRemove, fsLookup, h]
      · simp [fsRemove, fsLookup, h]

theorem fsLookup_fsSet_self (fs : FS) (p : List Char) (c : Nat) :
    fsLookup (fsSet fs p c) p = some c := by
  induction fs with
  | nil => simp [fsSet, fsRemove, fsLookup]
  | cons e rest ih =>
      by_cases h : e.1 = p
      · simp [fsSet, fsRemove, fsLookup, h]
      · simp [fsSet, fsRemove, fsLookup, h]

theorem parseLinesV_eq (ls : List (List Char)) :
    ∀ res cur, parseLinesV ls res cur = parseLines ls res cur := by
  induction ls with
  | nil => intro res cur; rfl
  | cons line rest ih =>
      intro res cur
      simp only [parseLinesV, parseLines]
      by_cases hEmpty : line.isEmpty
      · simp [hEmpty, ih]
      · simp only [hEmpty, if_false]
        cases hb : secBeginName line with
        | some name => simp [ih]
        | none =>
            cases he : secEndName line with
            | some name =>
                by_cases hn : name = cur.name
                · simp [hn, ih]
                · simp [hn]
            | none =>
                cases hs : splitFirstEq line with
                | mk key vOpt =>
                    cases vOpt with
                    | some v => simp [ih]
                    | none => simp

theorem parseLines_append (a : List (List Char)) :
    ∀ b res cur, parseLines (a ++ b) res cur =
      match parseLines a res cur with
      | .ok rc => parseLines b rc.1 rc.2
      | .error e => .error e := by
  induction a with
  | nil => intro b res cur; rfl
  | cons line rest ih =>
      intro b res cur
      simp only [List.cons_append, parseLines]
      by_cases hEmpty : line.isEmpty
      · simp [hEmpty, ih]
      · simp only [hEmpty, if_false]
        cases hb : secBeginName line with
        | some name => simp [ih]
        | none =>
            cases he : secEndName line with
            | some name =>
                by_cases hn : name = cur.name
                · simp [hn, ih]
                · simp [hn]
            | none =>
                cases hs : splitFirstEq line with
                | mk key vOpt =>
                    cases vOpt with
                    | some v => simp [ih]
                    | none => simp

/-- A line that is nonempty, matches neither section marker, and carries
an equals sign only updates the current section of the parse state. -/
def isKVLine (l : List Char) : Prop :=
  l.isEmpty = false ∧ secBeginName l = none ∧ secEndName l = none ∧
    (splitFirstEq l).2.isSome = true

instance (l : List Char) : Decidable (isKVLine l) := by
  unfold isKVLine; infer_instance

theorem parseLines_kv_lines (kvs : List (List Char)) :
    ∀ res cur, (∀ l ∈ kvs, isKVLine l) →
      ∃ cur1, parseLines kvs res cur = .ok (res, cur1) := by
  induction kvs with
  | nil => intro res cur _; exact ⟨cur, rfl⟩
  | cons line rest ih =>
      intro res cur hall
      obtain ⟨hne, hb, he, hs⟩ := hall line (List.mem_cons_self line rest)
      obtain ⟨v, hv⟩ := Option.isSome_iff_exists.mp hs
      simp only [parseLines, hne, if_false, hb, he, Bool.false_eq_true]
      cases hsp : splitFirstEq line with
      | mk key vOpt =>
          rw [hsp] at hv
          subst hv
          exact ih _ _ (fun l hl => hall l (List.mem_cons_of_mem _ hl))

theorem saveLoop_ok (stream : List UploadEvent) :
    ∀ i wf absorbed written a w,
      saveLoop stream i wf absorbed written = .ok (a, w) →
      a = absorbed ++ streamedBytes stream ∧
      w = written ++ streamedBytes stream := by
  induction stream with
  | nil =>
      intro i wf absorbed written a w h
      simp only [saveLoop] at h
      obtain ⟨ha, hw⟩ := Prod.mk.injEq .. ▸ (Except.ok.injEq .. ▸ h)
      simp [streamedBytes, ← ha, ← hw]
  | cons ev rest ih =>
      intro i wf absorbed written a w h
      cases ev with
      | streamError e => simp [saveLoop] at h
      | chunk b =>
          simp only [saveLoop] at h
          by_cases hwf : wf = some i
          · simp [hwf] at h
          · simp only [hwf, if_false] at h
            obtain ⟨ha, hw⟩ := ih (i + 1) wf (absorbed ++ b) (written ++ b) a w h
            simp [streamedBytes, ha, hw]

theorem sha256_length (msg : List Nat) : (sha256 msg).length = 32 := by
  simp [sha256, bytesOfWord32]

theorem bytesToHex_length (bs : List Nat) :
    (bytesToHex bs).length = 2 * bs.length := by
  induction bs with
  | nil => rfl
  | cons b rest ih =>
      simp [bytesToHex, byteToHex2] at ih ⊢
      omega

theorem hexDigitChar_mem (n : Nat) (h : n < 16) :
    hexDigitChar n ∈ lowercaseHexDigits := by
  interval_cases n <;> decide

theorem bytesToHex_chars (bs : List Nat) (c : Char) (h : c ∈ bytesToHex bs) :
    c ∈ lowercaseHexDigits := by
  simp only [bytesToHex, List.mem_flatten, List.mem_map] at h
  obtain ⟨l, ⟨b, _, hbl⟩, hcl⟩ := h
  subst hbl
  simp only [byteToHex2, List.mem_cons, List.not_mem_nil, or_false] at hcl
  rcases hcl with hc | hc
  · subst hc; exact hexDigitChar_mem _ (Nat.mod_lt _ (by norm_num))
  · subst hc; exact hexDigitChar_mem _ (Nat.mod_lt _ (by norm_num))

/-! ## Claim theorems -/

/-- C10: the two copies of the probe-output parser — parseProbeOutput in
video.rs and parseProbeOutput in video_processing.rs — agree on every
input: same sections with the same names and key-value maps, or the same
error. -/
theorem C10_parse_copies_equivalent (output : List Char) :
    parseProbeOutputV output = parseProbeOutput output := by
  unfold parseProbeOutputV parseProbeOutput
  rw [parseLinesV_eq]

/-- C5: generateThumbnail chooses the capture offset as 10 seconds when
the duration strictly exceeds 30 seconds and as one third of the duration
otherwise; in particular a duration of exactly 30 falls under the
one-third rule, the boundary being exclusive. -/
theorem C5_thumbnail_offset_rule (v : Video) (st : CmdStatus) :
    (30 < v.duration → (generateThumbnail v st).2 = 10) ∧
    (v.duration ≤ 30 → (generateThumbnail v st).2 = v.duration / 3) := by
  unfold generateThumbnail
  constructor
  · intro h; simp [h]
  · intro h; simp [not_lt.mpr h]

/-- C5 witness: at a duration of exactly 30 seconds the offset is 30 / 3. -/
theorem C5_thumbnail_offset_rule_witness :
    ((30 : ℚ) ≤ 30) ∧
    (generateThumbnail { Video.new (str "a") (str "a.webm") with duration := 30 }
      CmdStatus.launchError).2 = 30 / 3 :=
  ⟨by norm_num,
   (C5_thumbnail_offset_rule
      { Video.new (str "a") (str "a.webm") with duration := 30 }
      CmdStatus.launchError).2 (by norm_num)⟩

/-- C6: generateThumbnail never returns an error: on a launch failure or
a non-zero exit it returns Ok with the record unchanged (thumbnail path
untouched, hence still unset when it was unset); only on a successful exit
is the thumbnail path set to the record's path with the webp extension. -/
theorem C6_thumbnail_never_errors (v : Video) (st : CmdStatus) :
    (generateThumbnail v st).1 =
      Except.ok
        (match st with
         | .exit true =>
             { v with thumbnail_path := some (withExtension v.path (str "webp")) }
         | _ => v) := by
  cases st with
  | launchError => rfl
  | exit b => cases b <;> rfl

/-- C3: whenever probeMetadata fails — the probe tool failing to launch,
exiting non-zero or being killed by a signal, unparsable probe output,
a missing or unrecognized format name, or a missing or unparsable
duration — the permanent media file is deleted before the error is
returned. -/
theorem C3_probe_failure_deletes_file (self : RawVideo) (config : Configuration)
    (outcome : ProcOutcome) (now : Int) (fs : FS) (e : Err)
    (h : (probeMetadata self config outcome now fs).1 = .error e) :
    (probeMetadata self config outcome now fs).2 =
      fsRemove fs (joinPath config.video_dir self.path) ∧
    fsLookup (probeMetadata self config outcome now fs).2
      (joinPath config.video_dir self.path) = none := by
  unfold probeMetadata at h ⊢
  cases hp : probeVideo outcome with
  | error pe => simp [hp, fsLookup_fsRemove_self]
  | ok metadata =>
      cases hf : fillProbedMetadata
          { Video.new self.hash self.path with
              original_filename := self.original_filename,
              upload_time := now } metadata with
      | error fe => simp [hp, hf, fsLookup_fsRemove_self]
      | ok video => simp [hp, hf] at h

/-- C3 witness: a launch failure of the probe deletes the media file. -/
theorem C3_probe_failure_deletes_file_witness :
    (probeMetadata ⟨str "abcdef123456.webm", str "abcdef123456", str "o.webm"⟩
        cfgLib ProcOutcome.launchError 100
        [(str "lib/abcdef123456.webm", 5)]).1 =
      Except.error (Err.rterr (str "Failed to run ffprobe")) ∧
    fsLookup (probeMetadata ⟨str "abcdef123456.webm", str "abcdef123456", str "o.webm"⟩
        cfgLib ProcOutcome.launchError 100
        [(str "lib/abcdef123456.webm", 5)]).2
      (joinPath cfgLib.video_dir (str "abcdef123456.webm")) = none :=
  ⟨by rfl,
   (C3_probe_failure_deletes_file
      ⟨str "abcdef123456.webm", str "abcdef123456", str "o.webm"⟩ cfgLib
      ProcOutcome.launchError 100 [(str "lib/abcdef123456.webm", 5)]
      (Err.rterr (str "Failed to run ffprobe")) (by rfl)).2⟩

/-- C4: if inserting the finished record into the index fails — including
the id-uniqueness violation — addToDatabase deletes the permanent media
file before propagating the error and leaves the index unchanged, so no
media file remains without a matching record. -/
theorem C4_insert_failure_deletes_file (self : Video) (config : Configuration)
    (sqlFail : Bool) (db : DB) (fs : FS) (e : Err)
    (h : (addToDatabase self config sqlFail db fs).1 = .error e) :
    (addToDatabase self config sqlFail db fs).2.1 = db ∧
    (addToDatabase self config sqlFail db fs).2.2 =
      fsRemove fs (videoPath self config) ∧
    fsLookup (addToDatabase self config sqlFail db fs).2.2
      (videoPath self config) = none := by
  unfold addToDatabase at h ⊢
  cases ha : addVideo sqlFail db self with
  | error ae => simp [ha, fsLookup_fsRemove_self]
  | ok db1 => simp [ha] at h

/-- C4 witness: a uniqueness violation (a record with the same id already
in the index) makes the insert fail and the media file is deleted. -/
theorem C4_insert_failure_deletes_file_witness :
    (addToDatabase (Video.new (str "abcdef123456") (str "abcdef123456.webm"))
        cfgLib false [Video.new (str "abcdef123456") (str "other.webm")]
        [(str "lib/abcdef123456.webm", 5)]).1 =
      Except.error (Err.rterr (str "Failed to add video: UNIQUE constraint failed")) ∧
    fsLookup (addToDatabase (Video.new (str "abcdef123456") (str "abcdef123456.webm"))
        cfgLib false [Video.new (str "abcdef123456") (str "other.webm")]
        [(str "lib/abcdef123456.webm", 5)]).2.2
      (videoPath (Video.new (str "abcdef123456") (str "abcdef123456.webm")) cfgLib) = none :=
  ⟨by rfl,
   (C4_insert_failure_deletes_file
      (Video.new (str "abcdef123456") (str "abcdef123456.webm")) cfgLib false
      [Video.new (str "abcdef123456") (str "other.webm")]
      [(str "lib/abcdef123456.webm", 5)]
      (Err.rterr (str "Failed to add video: UNIQUE constraint failed"))
      (by rfl)).2.2⟩

/-- C2 counterexample: the claim says moveToLibrary fails with an error
when a file with the derived name already exists.  On the filesystem
fsBoth, the destination lib/abcdef123456.webm already exists with content
tag 7, yet moveToLibrary returns Ok and the destination afterwards holds
the temp file's content tag 5: the existing file was silently replaced,
as std::fs::rename is documented to do, and no error was raised. -/
theorem C2_move_counterexample :
    fsLookup fsBoth (str "lib/abcdef123456.webm") = some 7 ∧
    (moveToLibrary rawTemp cfgLib false fsBoth).1 =
      Except.ok ⟨str "lib/abcdef123456.webm", str "abcdef123456", str "orig.webm"⟩ ∧
    fsLookup (moveToLibrary rawTemp cfgLib false fsBoth).2
      (str "lib/abcdef123456.webm") = some 5 :=
  ⟨by rfl, by rfl, by rfl⟩

/-- C2 amended: moveToLibrary performs no pre-existence check — a rename
onto an existing destination silently replaces it and returns Ok — and on
a rename failure it deletes both the temp file and any partially created
destination before surfacing the error. -/
theorem C2_move_rename_semantics (self : RawVideo) (config : Configuration)
    (renameFail : Bool) (fs : FS) :
    (∀ e, (moveToLibrary self config renameFail fs).1 = .error e →
       (moveToLibrary self config renameFail fs).2 =
         fsRemove (fsRemove fs self.path) (libraryDest self config) ∧
       fsLookup (moveToLibrary self config renameFail fs).2
         (libraryDest self config) = none) ∧
    (∀ c, fsLookup fs self.path = some c → renameFail = false →
       (moveToLibrary self config renameFail fs).1 =
         Except.ok ⟨libraryDest self config, self.hash, self.original_filename⟩ ∧
       fsLookup (moveToLibrary self config renameFail fs).2
         (libraryDest self config) = some c) := by
  constructor
  · intro e he
    unfold moveToLibrary at he ⊢
    cases hr : fsRename renameFail fs self.path (libraryDest self config) with
    | error re =>
        refine ⟨by simp [hr], ?_⟩
        have : (match fsRename renameFail fs self.path (libraryDest self config) with
          | .error _ =>
              ((.error (.rterr (str "Failed to rename temp file")),
                fsRemove (fsRemove fs self.path) (libraryDest self config)) :
                Except Err RawVideo × FS)
          | .ok fs1 =>
              (.ok ⟨libraryDest self config, self.hash, self.original_filename⟩, fs1)).2 =
            fsRemove (fsRemove fs self.path) (libraryDest self config) := by
          simp [hr]
        rw [this]
        exact fsLookup_fsRemove_self _ _
    | ok fs1 => simp [hr] at he
  · intro c hc hrf
    subst hrf
    unfold moveToLibrary
    unfold fsRename
    simp only [if_false, Bool.false_eq_true, hc]
    simp [fsLookup_fsSet_self]

/-- C2 amended witness: with the temp file present and no injected rename
failure, the move succeeds and the destination carries the moved
content. -/
theorem C2_move_rename_semantics_witness :
    fsLookup [(str "lib/temp-9.mp4", 11)] (str "lib/temp-9.mp4") = some 11 ∧
    (moveToLibrary ⟨str "lib/temp-9.mp4", str "0123456789ab", str "o.mp4"⟩
        cfgLib false [(str "lib/temp-9.mp4", 11)]).1 =
      Except.ok ⟨libraryDest ⟨str "lib/temp-9.mp4", str "0123456789ab", str "o.mp4"⟩ cfgLib,
                 str "0123456789ab", str "o.mp4"⟩ :=
  ⟨by rfl,
   ((C2_move_rename_semantics ⟨str "lib/temp-9.mp4", str "0123456789ab", str "o.mp4"⟩
      cfgLib false [(str "lib/temp-9.mp4", 11)]).2 11 (by rfl) rfl).1⟩

theorem secBeginName_ne_empty (l : List Char) (n : List Char)
    (h : secBeginName l = some n) : l.isEmpty = false := by
  cases l with
  | nil => simp [secBeginName] at h
  | cons c rest => simp

/-- C7 counterexample: the claim says that input ending inside an opened
but never closed section is rejected with an error.  The input consisting
of the opening line of a FORMAT section and one key-value pair, with no
closing line, is instead accepted, and the result omits the section and
its pair entirely. -/
theorem C7_unclosed_section_counterexample :
    parseProbeOutput (str "[FORMAT]\nkey=value") = .ok [] := by rfl

/-- C7 amended: the parser rejects a metadata line without an equals sign
and a mismatched section end with a descriptive error, but an input that
ends inside a section that was opened and never closed parses
successfully, silently omitting that section's key-value pairs: appending
an opening marker and any key-value lines to a successfully parsed input
leaves the parse result unchanged. -/
theorem C7_parser_drops_trailing_unclosed_section (output : List Char)
    (ls : List (List Char)) (res : List ProbedMetadataSection)
    (cur : ProbedMetadataSection) (bl : List Char) (name : List Char)
    (kvs : List (List Char))
    (hlines : rustLines output = ls ++ bl :: kvs)
    (hok : parseLines ls [] ProbedMetadataSection.mkNew = .ok (res, cur))
    (hbl : secBeginName bl = some name)
    (hkv : ∀ l ∈ kvs, isKVLine l) :
    parseProbeOutput output = .ok res := by
  unfold parseProbeOutput
  rw [hlines, parseLines_append, hok]
  have hne := secBeginName_ne_empty bl name hbl
  simp only [parseLines, hne, if_false, hbl, Bool.false_eq_true]
  obtain ⟨cur1, hc⟩ := parseLines_kv_lines kvs res ⟨name, []⟩ hkv
  rw [hc]
  rfl

/-- C7 amended witness: a well-formed section A followed by an unclosed
section B with one pair parses to just the section A. -/
theorem C7_parser_drops_trailing_unclosed_section_witness :
    rustLines (str "[A]\nk=v\n[/A]\n[B]\nx=y") =
      [str "[A]", str "k=v", str "[/A]"] ++ str "[B]" :: [str "x=y"] ∧
    parseProbeOutput (str "[A]\nk=v\n[/A]\n[B]\nx=y") =
      .ok [⟨str "A", [(str "k", str "v")]⟩] :=
  ⟨by rfl,
   C7_parser_drops_trailing_unclosed_section
     (str "[A]\nk=v\n[/A]\n[B]\nx=y")
     [str "[A]", str "k=v", str "[/A]"]
     [⟨str "A", [(str "k", str "v")]⟩]
     ⟨str "A", [(str "k", str "v")]⟩
     (str "[B]") (str "B") [str "x=y"]
     (by rfl) (by rfl) (by rfl) (by decide)⟩

/-- C8 counterexample: the claim says every casing of the artist or
author tag key is accepted, naming TAG:Artist as an example.  With the
mixed-case key TAG:Artist carrying the value Somebody, extraction
succeeds but leaves the artist empty: the value is not picked up. -/
theorem C8_mixed_case_artist_counterexample :
    (fillProbedMetadata (Video.new (str "abcdef123456") (str "v.webm"))
        [⟨str "FORMAT", mixedCaseArtistMap⟩]).map (fun v => v.artist) =
      Except.ok [] ∧ str "Somebody" ≠ [] :=
  ⟨by rfl, by decide⟩

/-- C8 amended: the artist field is populated from exactly four key
variants in the FORMAT section, in this precedence: TAG:artist,
TAG:author, TAG:ARTIST, TAG:AUTHOR — the all-lowercase and all-uppercase
forms only, not arbitrary casings — and when none of the four is present
the artist keeps its prior (empty) value and no error is raised. -/
theorem C8_artist_exact_variants (video : Video)
    (m : List (List Char × List Char)) (ct : ContainerType) (d : ℚ)
    (hfmt : (mapGet m (str "format_name")).bind ContainerType.fromFormatName
      = some ct)
    (hdur : (mapGet m (str "duration")).bind parseF64 = some d) :
    ∃ v1, fillProbedMetadata video [⟨str "FORMAT", m⟩] = .ok v1 ∧
      v1.artist = artistFromTags m video.artist := by
  obtain ⟨fv, hfv, hct⟩ : ∃ fv, mapGet m (str "format_name") = some fv ∧
      ContainerType.fromFormatName fv = some ct := by
    cases hm : mapGet m (str "format_name") with
    | none => rw [hm] at hfmt; simp at hfmt
    | some fv => rw [hm] at hfmt; exact ⟨fv, rfl, hfmt⟩
  obtain ⟨dv, hdv, hpd⟩ : ∃ dv, mapGet m (str "duration") = some dv ∧
      parseF64 dv = some d := by
    cases hm : mapGet m (str "duration") with
    | none => rw [hm] at hdur; simp at hdur
    | some dv => rw [hm] at hdur; exact ⟨dv, rfl, hdur⟩
  simp only [fillProbedMetadata, List.foldlM, fillSection, if_pos rfl, hfv, hct,
    hdv, hpd, bind_pure_comp, Functor.map]
  refine ⟨_, rfl, ?_⟩
  rcases h5 : mapGet m (str "TAG:artist") with _ | av <;>
  rcases h6 : mapGet m (str "TAG:author") with _ | av2 <;>
  rcases h7 : mapGet m (str "TAG:ARTIST") with _ | av3 <;>
  rcases h8 : mapGet m (str "TAG:AUTHOR") with _ | av4 <;>
  rcases h1 : mapGet m (str "TAG:title") with _ | tv <;>
  rcases h2 : mapGet m (str "TAG:TITLE") with _ | tv2 <;>
  rcases h3 : mapGet m (str "TAG:comment") with _ | cv <;>
  rcases h4 : mapGet m (str "TAG:COMMENT") with _ | cv2 <;>
  simp [artistFromTags, h1, h2, h3, h4, h5, h6, h7, h8]

/-- C8 amended witness: a lowercase author tag is picked up as the
artist. -/
theorem C8_artist_exact_variants_witness :
    (mapGet authorTagMap (str "format_name")).bind ContainerType.fromFormatName
      = some ContainerType.WebM ∧
    ∃ v1, fillProbedMetadata (Video.new (str "x") (str "x.webm"))
        [⟨str "FORMAT", authorTagMap⟩] = .ok v1 ∧
      v1.artist = artistFromTags authorTagMap
        (Video.new (str "x") (str "x.webm")).artist :=
  ⟨by rfl,
   C8_artist_exact_variants (Video.new (str "x") (str "x.webm")) authorTagMap
     ContainerType.WebM (15 / 2) (by rfl)
     (by simp [parseF64, str, digitsVal, digitVal, List.span, List.span.loop,
               mapGet, authorTagMap, List.find?]
         norm_num)⟩

/-- C1: for every upload stream that saveToTemp drains successfully, the
hash field of the returned RawVideo is the lowercase hexadecimal encoding
of the first 6 bytes of the SHA-256 digest of exactly the streamed bytes
— 12 lowercase hex characters — and this string is the id the record is
created with (the record construction is modelled from the spec, as the
Video constructor taking the hash is absent from the src revision). -/
theorem C1_hash_is_truncated_sha256 (origName : List Char)
    (stream : List UploadEvent) (env : SaveEnv) (config : Configuration)
    (raw : RawVideo) (tf : Option (List Nat))
    (h : saveToTemp (some origName) stream env config = (.ok raw, tf)) :
    raw.hash = bytesToHex ((sha256 (streamedBytes stream)).take 6) ∧
    raw.hash.length = 12 ∧
    (∀ c ∈ raw.hash, c ∈ lowercaseHexDigits) ∧
    (Video.new raw.hash raw.path).id = raw.hash := by
  unfold saveToTemp at h
  by_cases hc : env.createOk
  · simp only [hc, not_true, if_false] at h
    cases hsl : saveLoop stream 0 env.writeFailAt [] [] with
    | error e => rw [hsl] at h; simp at h
    | ok aw =>
        rw [hsl] at h
        simp only [Prod.mk.injEq, Except.ok.injEq] at h
        obtain ⟨hraw, _⟩ := h
        obtain ⟨ha, _⟩ := saveLoop_ok stream 0 env.writeFailAt [] [] aw.1 aw.2 hsl
        simp only [List.nil_append] at ha
        have hhash : raw.hash = bytesToHex ((sha256 (streamedBytes stream)).take 6) := by
          rw [← hraw, ← ha]
        refine ⟨hhash, ?_, ?_, rfl⟩
        · rw [hhash, bytesToHex_length, List.length_take, sha256_length]
          norm_num
        · intro c hcmem
          rw [hhash] at hcmem
          exact bytesToHex_chars _ c hcmem
  · simp [hc] at h

/-- C1 witness: streaming the three bytes of the word abc produces the
known truncated SHA-256 digest prefix as the hash. -/
theorem C1_hash_is_truncated_sha256_witness :
    saveToTemp (some (str "a.webm")) [UploadEvent.chunk [97, 98, 99]]
      ⟨str "temp-1", true, none⟩ cfgLib =
      (.ok ⟨str "lib/temp-1.webm", str "ba7816bf8f01", str "a.webm"⟩,
       some [97, 98, 99]) ∧
    (str "ba7816bf8f01" : List Char) =
      bytesToHex ((sha256 (streamedBytes [UploadEvent.chunk [97, 98, 99]])).take 6) :=
  ⟨by rfl,
   (C1_hash_is_truncated_sha256 (str "a.webm") [UploadEvent.chunk [97, 98, 99]]
     ⟨str "temp-1", true, none⟩ cfgLib
     ⟨str "lib/temp-1.webm", str "ba7816bf8f01", str "a.webm"⟩
     (some [97, 98, 99]) (by rfl)).1⟩

/-- C9: on successful completion of the read loop, the absorbed byte
sequence and the written byte sequence coincide — the finalized digest is
the hash of exactly the bytes written to the temp file, which are exactly
the streamed bytes.  The embedded loop mirrors the source order: the
hasher is updated with a chunk before the chunk is appended to the file. -/
theorem C9_digest_is_hash_of_written_bytes (origName : List Char)
    (stream : List UploadEvent) (env : SaveEnv) (config : Configuration)
    (raw : RawVideo) (content : List Nat)
    (h : saveToTemp (some origName) stream env config = (.ok raw, some content)) :
    saveLoop stream 0 env.writeFailAt [] [] = .ok (content, content) ∧
    raw.hash = bytesToHex ((sha256 content).take 6) ∧
    content = streamedBytes stream := by
  unfold saveToTemp at h
  by_cases hc : env.createOk
  · simp only [hc, not_true, if_false] at h
    cases hsl : saveLoop stream 0 env.writeFailAt [] [] with
    | error e => rw [hsl] at h; simp at h
    | ok aw =>
        rw [hsl] at h
        simp only [Prod.mk.injEq, Except.ok.injEq, Option.some.injEq] at h
        obtain ⟨hraw, hcont⟩ := h
        obtain ⟨ha, hw⟩ := saveLoop_ok stream 0 env.writeFailAt [] [] aw.1 aw.2 hsl
        simp only [List.nil_append] at ha hw
        have haw : aw = (content, content) := by
          cases aw with
          | mk a1 a2 =>
              simp only at ha hw hcont
              rw [Prod.mk.injEq]
              constructor
              · rw [ha, ← hw, hcont]
              · exact hcont
        refine ⟨by rw [haw], ?_, ?_⟩
        · rw [← hraw, haw]
        · rw [← hcont, hw]
  · simp [hc] at h

/-- C9 witness: a two-chunk stream is absorbed and written identically
and hashed over the concatenation. -/
theorem C9_digest_is_hash_of_written_bytes_witness :
    saveLoop [UploadEvent.chunk [1, 2], UploadEvent.chunk [3]] 0 none [] [] =
      .ok ([1, 2, 3], [1, 2, 3]) ∧
    [1, 2, 3] = streamedBytes [UploadEvent.chunk [1, 2], UploadEvent.chunk [3]] :=
  ⟨(C9_digest_is_hash_of_written_bytes (str "b.mp4")
      [UploadEvent.chunk [1, 2], UploadEvent.chunk [3]]
      ⟨str "temp-2", true, none⟩ cfgLib
      ⟨str "lib/temp-2.mp4",
       bytesToHex ((sha256 [1, 2, 3]).take 6), str "b.mp4"⟩
      [1, 2, 3] (by rfl)).1,
   (C9_digest_is_hash_of_written_bytes (str "b.mp4")
      [UploadEvent.chunk [1, 2], UploadEvent.chunk [3]]
      ⟨str "temp-2", true, none⟩ cfgLib
      ⟨str "lib/temp-2.mp4",
       bytesToHex ((sha256 [1, 2, 3]).take 6), str "b.mp4"⟩
      [1, 2, 3] (by rfl)).2.2⟩
